import Mathlib

/-! Verification of the proxy gateway / SSRF-hardened fetch layer of the
NeMo Agent Toolkit UI repository.

The development shallowly embeds the security-validation and
protocol-processing core:

* `src/utils/security/url-validation.ts` — private-IP classification,
  host allowlisting, DNS-rebinding checks, outbound URL validation;
* `src/utils/security/url-validation.js` — inbound proxy-path validation;
* `src/utils/security/secure-fetch.ts` — response-size enforcement;
* `src/proxy/response-processors.js` — buffered and streaming response
  processing (SSE-style line reassembly, content extraction,
  intermediate-step framing);
* `src/proxy/request-transformers.js` — backend payload builders.

Text is modelled as `List Char` (`Str`), which makes every operation a
structural computation the kernel can evaluate.  JavaScript runtime
primitives (the WHATWG `URL` constructor, `JSON.parse`, `JSON.stringify`,
`parseInt`, `Number`) are modelled for the input space this code
exercises; each model notes its scope at its definition.
-/

/-- Text is modelled as a list of characters. -/
abbrev Str := List Char

/-- JavaScript whitespace characters recognised by `String.prototype.trim`
(ASCII subset; the Unicode space classes are not exercised here). -/
def isJsWs (c : Char) : Bool :=
  c == (' ') || c == ('\t') || c == ('\n') || c == ('\r') || c == ('\x0b') || c == ('\x0c')

/-- Models `s.trim()`: strip leading and trailing whitespace. -/
def trimStr (s : Str) : Str :=
  ((s.dropWhile isJsWs).reverse.dropWhile isJsWs).reverse

/-- Models `s.startsWith(p)`. -/
def startsWithStr (s p : Str) : Bool :=
  p.isPrefixOf s

/-- ASCII lower-casing of a string, modelling `s.toLowerCase()` for the
ASCII hostnames exercised here. -/
def lowerStr (s : Str) : Str :=
  s.map Char.toLower

/-- Models `s.split(sep)` for a single-character separator. -/
def splitOnCharFn (sep : Char) : Str → List Str
  | [] => [[]]
  | c :: cs =>
    match splitOnCharFn sep cs with
    | [] => if c = sep then [[], []] else [[c]]
    | l :: ls => if c = sep then [] :: l :: ls else (c :: l) :: ls

/-- Result of one `buffer.split('\n')` / `buffer = lines.pop()` round:
the complete lines (in order) and the trailing incomplete remainder. -/
def splitNlCons (c : Char) (r : List Str × Str) : List Str × Str :=
  if c = ('\n') then ([] :: r.1, r.2)
  else
    match r.1 with
    | [] => ([], c :: r.2)
    | l :: ls => ((c :: l) :: ls, r.2)

/-- Splits a text into its complete newline-terminated lines plus the
trailing remainder, exactly as `const lines = buffer.split('\n');
buffer = lines.pop() || ''` does. -/
def splitNl : Str → List Str × Str
  | [] => ([], [])
  | c :: cs => splitNlCons c (splitNl cs)

/-- Digit-string evaluation (big-endian decimal). -/
def digitsToNat (d : Str) : Nat :=
  d.foldl (fun a c => a * 10 + (c.toNat - ('0').toNat)) 0

/-- Case-insensitive hexadecimal digit, as matched by `[0-9a-f]` under
the `i` regex flag. -/
def isHexDigitCI (c : Char) : Bool :=
  c.isDigit || (decide (('a') ≤ c.toLower) && decide (c.toLower ≤ ('f')))

/-! Model of the WHATWG `URL` constructor.

`url-validation.ts` consults only `url.protocol` and `url.hostname`, so
the model parses exactly those.  It covers absolute URLs of the shapes
exercised by this repository: `scheme:` followed optionally by
`//[userinfo@]host[:port][/path...]`, with bracketed IPv6 hosts kept in
brackets and hostnames lower-cased, and it rejects scheme-less strings
and authority forms with an empty host (for which `new URL` throws).
Percent-encoding, path normalisation and IDNA are not consulted by the
validators and are not modelled. -/

/-- Parsed URL parts used by the validators. -/
structure URLParts where
  protocol : Str
  hostname : Str
deriving DecidableEq

/-- Characters permitted in a URL scheme. -/
def schemeChar (c : Char) : Bool :=
  c.isAlpha || c.isDigit || c == ('+') || c == ('-') || c == ('.')

/-- The host-and-port portion of an authority: everything after the last
`@` (userinfo is discarded, as `new URL` does). -/
def lastPartAfterAt (s : Str) : Str :=
  (splitOnCharFn ('@') s).getLastD s

/-- Extracts the hostname out of a host-port string, keeping the square
brackets of an IPv6 literal (as `url.hostname` does). -/
def hostOfHostPort (hostPort : Str) : Str :=
  match hostPort with
  | '[' :: rest => ('[') :: (rest.takeWhile (fun c => c ≠ (']'))) ++ [(']')]
  | _ => hostPort.takeWhile (fun c => c ≠ (':'))

/-- Models `new URL(s)`, returning `none` where the constructor throws. -/
def parseURL (s : Str) : Option URLParts :=
  let scheme := s.takeWhile schemeChar
  match scheme.head? with
  | none => none
  | some c0 =>
    if !c0.isAlpha then none
    else
      match s.drop scheme.length with
      | ':' :: afterColon =>
        let protocol := lowerStr scheme ++ [(':')]
        if startsWithStr afterColon (("//").data) then
          let auth := (afterColon.drop 2).takeWhile
            (fun c => !(c == ('/') || c == ('?') || c == ('#')))
          let hostname := hostOfHostPort (lastPartAfterAt auth)
          if hostname.isEmpty then none
          else some ⟨protocol, lowerStr hostname⟩
        else some ⟨protocol, []⟩
      | _ => none

/-! Embedding of `src/utils/security/url-validation.ts`. -/

/-- The `NODE_ENV` values this code distinguishes. -/
inductive NodeEnv where
  | production
  | development
  | test
deriving DecidableEq

/-- The environment-derived configuration the validators read:
`NODE_ENV`, `ALLOWED_SERVER_URLS` and `NEXT_PUBLIC_SERVER_URL`
(unset variables are the empty string, as `process.env.X || ''`). -/
structure Cfg where
  nodeEnv : NodeEnv
  allowedServerUrls : Str
  nextPublicServerUrl : Str
deriving DecidableEq

/-- Embeds `getAllowedHosts`: split `ALLOWED_SERVER_URLS` on commas, trim,
drop empties, then append the hostname of `NEXT_PUBLIC_SERVER_URL`
(when set and parseable) unless already present. -/
def getAllowedHosts (cfg : Cfg) : List Str :=
  let allowedServerUrls :=
    ((splitOnCharFn (',') cfg.allowedServerUrls).map trimStr).filter (fun h => !h.isEmpty)
  let defaultServerHost : Str :=
    if cfg.nextPublicServerUrl.isEmpty then []
    else
      match parseURL cfg.nextPublicServerUrl with
      | some u => u.hostname
      | none => []
  if !defaultServerHost.isEmpty && !(allowedServerUrls.contains defaultServerHost) then
    allowedServerUrls ++ [defaultServerHost]
  else allowedServerUrls

/-- The second-octet strings accepted by the Class-B pattern
`^172\.(1[6-9]|2[0-9]|3[0-1])\.`. -/
def private172Octets : List Str :=
  (["16", "17", "18", "19", "20", "21", "22", "23", "24",
    "25", "26", "27", "28", "29", "30", "31"]).map (fun s => s.data)

/-- Embeds the `^172\.(1[6-9]|2[0-9]|3[0-1])\.` regex test. -/
def is172Private (h : Str) : Bool :=
  startsWithStr h (("172.").data) &&
    (private172Octets.contains ((h.drop 4).take 2) &&
      startsWithStr ((h.drop 4).drop 2) ((".").data))

/-- Embeds `PRIVATE_IP_PATTERNS.some((pattern) => pattern.test(hostname))`:
loopback, RFC1918, link-local, IPv6 loopback/link-local/unique-local,
`localhost`, unspecified and broadcast addresses. -/
def matchesPrivatePattern (h : Str) : Bool :=
  startsWithStr h (("127.").data) ||
  startsWithStr h (("10.").data) ||
  is172Private h ||
  startsWithStr h (("192.168.").data) ||
  startsWithStr h (("169.254.").data) ||
  h == ("::1").data ||
  startsWithStr (lowerStr h) (("fe80:").data) ||
  startsWithStr (lowerStr h) (("fc00:").data) ||
  startsWithStr (lowerStr h) (("fd00:").data) ||
  lowerStr h == ("localhost").data ||
  h == ("0.0.0.0").data ||
  h == ("255.255.255.255").data

/-- Embeds `METADATA_ENDPOINTS`. -/
def METADATA_ENDPOINTS : List Str :=
  (["169.254.169.254", "169.254.170.2", "metadata.google.internal",
    "100.100.100.200"]).map (fun s => s.data)

/-- Embeds `isPrivateIP`: a private-range pattern match, or membership of
the lower-cased hostname in the metadata-endpoint list. -/
def isPrivateIP (hostname : Str) : Bool :=
  matchesPrivatePattern hostname || METADATA_ENDPOINTS.contains (lowerStr hostname)

/-- Embeds the `localhostAddresses` check inside `isAllowedRequestURL`. -/
def isLocalhostHostname (h : Str) : Bool :=
  ((["localhost", "127.0.0.1", "::1", "[::1]"]).map (fun s => s.data)).contains h ||
    startsWithStr h (("127.").data)

/-- The three early-return protocol checks at the top of
`isAllowedRequestURL` (production must be `https:`; development permits
`http:` only toward loopback hosts and otherwise only `http:`/`https:`),
`true` when none of them rejects. -/
def protocolGate (env : NodeEnv) (u : URLParts) : Bool :=
  if env = NodeEnv.production ∧ u.protocol ≠ ("https:").data then false
  else if env = NodeEnv.development ∧ u.protocol = ("http:").data ∧
      isLocalhostHostname u.hostname = false then false
  else if env = NodeEnv.development ∧ u.protocol ≠ ("http:").data ∧
      u.protocol ≠ ("https:").data then false
  else true

/-- Embeds `isAllowedRequestURL`: parse (the `catch` yields `false`),
run the protocol checks, then the allowlist decision — an empty computed
allowlist accepts everything outside production and rejects everything
in production, a non-empty one requires exact hostname membership. -/
def isAllowedRequestURL (cfg : Cfg) (url : Str) : Bool :=
  match parseURL url with
  | none => false
  | some parsedUrl =>
    if protocolGate cfg.nodeEnv parsedUrl then
      let allowedHosts := getAllowedHosts cfg
      if allowedHosts.isEmpty then
        if cfg.nodeEnv ≠ NodeEnv.production then true else false
      else allowedHosts.contains parsedUrl.hostname
    else false

/-- Embeds `checkDNSRebinding` (pure despite its `async` signature):
flags private/metadata hostnames, all-decimal notation (`^\d+$`) and
hexadecimal notation (`^0x[0-9a-f]+$` case-insensitively). -/
def checkDNSRebinding (hostname : Str) : Bool :=
  if isPrivateIP hostname then true
  else if !hostname.isEmpty && hostname.all (fun c => c.isDigit) then true
  else if startsWithStr (lowerStr hostname) (("0x").data) &&
      !((lowerStr hostname).drop 2).isEmpty &&
      ((lowerStr hostname).drop 2).all isHexDigitCI then true
  else false

/-- Embeds the `isDirectIP` test of `validateRequestURL`:
`/^[\d.]+$/.test(hostname) || /^[0-9a-f:]+$/i.test(hostname)`. -/
def isDirectIPHost (h : Str) : Bool :=
  (!h.isEmpty && h.all (fun c => c.isDigit || c == ('.'))) ||
  (!h.isEmpty && h.all (fun c => isHexDigitCI c || c == (':')))

/-- The result record of the TypeScript validators. -/
structure ValidationResult where
  isValid : Bool
  error : Option Str
  url : Option URLParts
deriving DecidableEq

/-- Embeds `validateRequestURL`: parse, protocol allowlist, host
allowlist, the production private-IP override, then the DNS-rebinding
check for hostnames that are not direct IP literals.  Error strings keep
the fixed prefix of the source message (the source interpolates the
permitted protocol list into the second one). -/
def validateRequestURL (cfg : Cfg) (urlString : Str) : ValidationResult :=
  match parseURL urlString with
  | none => ⟨false, some (("Invalid URL format").data), none⟩
  | some parsedUrl =>
    let allowedProtocols : List Str :=
      if cfg.nodeEnv = NodeEnv.production then [("https:").data]
      else [("http:").data, ("https:").data]
    if !allowedProtocols.contains parsedUrl.protocol then
      ⟨false, some (("Invalid protocol").data), none⟩
    else if !isAllowedRequestURL cfg urlString then
      ⟨false, some (("URL is not in the allowlist of permitted servers").data), none⟩
    else if cfg.nodeEnv = NodeEnv.production ∧ isPrivateIP parsedUrl.hostname = true then
      ⟨false, some (("Access to private IP addresses is not allowed in production").data), none⟩
    else if isDirectIPHost parsedUrl.hostname = false ∧
        checkDNSRebinding parsedUrl.hostname = true then
      ⟨false, some (("Potential DNS rebinding attack detected").data), none⟩
    else ⟨true, none, some parsedUrl⟩

/-! Embedding of `src/utils/security/url-validation.js` (inbound proxy paths).

The constants module it requires (`../../constants`) is not among the
sources. -/

/-- Modelled from the spec: the proxy constants module is missing from
the sources; §6 fixes the HTTP proxy prefix (`/api/*`). -/
def HTTP_PROXY_PATH : Str := ("/api").data

/-- Modelled from the spec: the proxy constants module is missing from
the sources; §6 fixes the backend path suffixes `/chat`, `/chat/stream`,
`/generate`, `/generate/stream` and `/call`. -/
def ALLOWED_PATHS : List Str :=
  (["/chat", "/chat/stream", "/generate", "/generate/stream", "/call"]).map
    (fun s => s.data)

/-- The result record of the JavaScript path validators. -/
structure PathValidationResult where
  isValid : Bool
  error : Option Str
deriving DecidableEq

/-- Embeds `validateProxyHttpPath`: the pathname must start with the
proxy prefix plus `/`; the prefix is stripped and the backend path must
equal an allowed path or extend one with `/` — a raw string comparison
with no normalisation.  Error strings keep the fixed part of the source
message (the source interpolates the offending path). -/
def validateProxyHttpPath (pathname : Str) : PathValidationResult :=
  if !startsWithStr pathname (HTTP_PROXY_PATH ++ [('/')]) then
    ⟨false, some (("Path must start with the proxy prefix").data)⟩
  else
    let backendPath := pathname.drop HTTP_PROXY_PATH.length
    let isAllowed := ALLOWED_PATHS.any
      (fun allowed => backendPath == allowed || startsWithStr backendPath (allowed ++ [('/')]))
    if isAllowed then ⟨true, none⟩
    else ⟨false, some (("Backend path is not in allowed list").data)⟩

/-! Embedding of `src/utils/security/secure-fetch.ts` (response-size enforcement).

Chunks are modelled by their byte lengths; the claims under check
concern when the size ceiling fires, which depends only on lengths. -/

/-- The error classes thrown by the secure fetch wrapper. -/
inductive FetchError where
  | responseTooLarge (size maxSize : Int)
  | timeoutAfter (ms : Nat)
deriving DecidableEq

/-- Models `parseInt(s, 10)`: skip leading whitespace, optional sign,
then the longest digit prefix; no digits means `NaN` (`none`). -/
def parseIntDec (s : Str) : Option Int :=
  let t := s.dropWhile isJsWs
  match t with
  | '-' :: rest =>
    let d := rest.takeWhile (fun c => c.isDigit)
    if d.isEmpty then none else some (-(digitsToNat d : Int))
  | '+' :: rest =>
    let d := rest.takeWhile (fun c => c.isDigit)
    if d.isEmpty then none else some ((digitsToNat d : Int))
  | _ =>
    let d := t.takeWhile (fun c => c.isDigit)
    if d.isEmpty then none else some ((digitsToNat d : Int))

/-- Embeds `validateResponseSize`: a present, non-empty `content-length`
header that parses to a value above the ceiling raises
`ResponseTooLargeError`; everything else passes (checked later during
streaming). -/
def validateResponseSize (contentLength : Option Str) (maxSize : Nat) :
    Except FetchError Unit :=
  match contentLength with
  | none => Except.ok ()
  | some cl =>
    if cl.isEmpty then Except.ok ()
    else
      match parseIntDec cl with
      | none => Except.ok ()
      | some size =>
        if (maxSize : Int) < size then
          Except.error (FetchError.responseTooLarge size (maxSize : Int))
        else Except.ok ()

/-- Embeds the read loop of `createSizeValidatedResponse`: accumulate the
chunk sizes; the chunk that pushes the running total above the ceiling
is not retained and the loop throws `ResponseTooLargeError` carrying
that total. -/
def bufferLoop (maxSize : Nat) (total : Nat) : List Nat → Except FetchError (List Nat)
  | [] => Except.ok []
  | v :: rest =>
    if maxSize < total + v then
      Except.error (FetchError.responseTooLarge ((total + v : Nat) : Int) (maxSize : Int))
    else
      match bufferLoop maxSize (total + v) rest with
      | Except.ok ds => Except.ok (v :: ds)
      | Except.error e => Except.error e

/-- The non-streaming body path of `secureFetch`: `validateResponseSize`
on the header, then the buffering read loop. -/
def secureFetchBody (contentLength : Option Str) (maxSize : Nat) (chunks : List Nat) :
    Except FetchError (List Nat) :=
  match validateResponseSize contentLength maxSize with
  | Except.error e => Except.error e
  | Except.ok _ => bufferLoop maxSize 0 chunks

/-- Embeds the wrapping stream of `secureFetchStream`: chunks are
enqueued while the running total stays within the ceiling; the first
chunk that crosses it is not enqueued and the stream errors with
`ResponseTooLargeError` carrying the crossed total.  The result is the
list of delivered chunks and the terminal error, if any. -/
def streamWithLimit (maxSize : Nat) (total : Nat) : List Nat → List Nat × Option FetchError
  | [] => ([], none)
  | v :: rest =>
    if maxSize < total + v then
      ([], some (FetchError.responseTooLarge ((total + v : Nat) : Int) (maxSize : Int)))
    else
      let r := streamWithLimit maxSize (total + v) rest
      (v :: r.1, r.2)

/-! Model of JSON values.

JavaScript JSON values, modelled with mutual inductives so that every
traversal is a structural computation.  Numbers are scaled decimals
`mant × 10⁻ˢᶜᵃˡᵉ`, which covers the integral and decimal literals this
code exchanges (exponent and out-of-range forms are not exercised). -/

mutual

inductive Json where
  | null
  | bool (b : Bool)
  | num (mant : Int) (scale : Nat)
  | str (s : Str)
  | arr (elems : JsonList)
  | obj (members : JsonMembers)

inductive JsonList where
  | nil
  | cons (hd : Json) (tl : JsonList)

inductive JsonMembers where
  | nil
  | cons (key : Str) (val : Json) (tl : JsonMembers)

end

/-- Builds a `JsonList` from a Lean list. -/
def jlOfList : List Json → JsonList
  | [] => JsonList.nil
  | x :: xs => JsonList.cons x (jlOfList xs)

/-- Builds `JsonMembers` from a Lean association list. -/
def jmOfList : List (Str × Json) → JsonMembers
  | [] => JsonMembers.nil
  | kv :: rest => JsonMembers.cons kv.1 kv.2 (jmOfList rest)

/-- The keys of an object member list, in order. -/
def jsonKeysM : JsonMembers → List Str
  | JsonMembers.nil => []
  | JsonMembers.cons k _ tl => k :: jsonKeysM tl

/-- The keys of a JSON object (empty for non-objects). -/
def jsonKeys : Json → List Str
  | Json.obj ms => jsonKeysM ms
  | _ => []

/-- Last-occurrence lookup in an object member list, mirroring the
last-key-wins behaviour of duplicate keys under `JSON.parse`. -/
def jsGetMembers (ms : JsonMembers) (k : Str) (acc : Option Json) : Option Json :=
  match ms with
  | JsonMembers.nil => acc
  | JsonMembers.cons k2 v tl => jsGetMembers tl k (if k2 == k then some v else acc)

/-- Models property access `j?.k`: a key lookup on objects, `undefined`
(`none`) on every other value. -/
def jsGet : Json → Str → Option Json
  | Json.obj ms, k => jsGetMembers ms k none
  | _, _ => none

/-- Optional chaining `v?.k` on a possibly-`undefined` value. -/
def jsGetV (v : Option Json) (k : Str) : Option Json :=
  match v with
  | some j => jsGet j k
  | none => none

/-- Element access on a `JsonList`. -/
def jlGetIdx : JsonList → Nat → Option Json
  | JsonList.nil, _ => none
  | JsonList.cons x _, 0 => some x
  | JsonList.cons _ tl, n+1 => jlGetIdx tl n

/-- Models `v?.[i]`: index access on arrays, `undefined` otherwise. -/
def jsIndexV (v : Option Json) (i : Nat) : Option Json :=
  match v with
  | some (Json.arr xs) => jlGetIdx xs i
  | _ => none

/-- JavaScript truthiness of a JSON value: `null`, `false`, `0` and the
empty string are falsy, everything else (including empty objects and
arrays) is truthy. -/
def jsonTruthy : Json → Bool
  | Json.null => false
  | Json.bool b => b
  | Json.num m _ => decide (m ≠ 0)
  | Json.str s => !s.isEmpty
  | Json.arr _ => true
  | Json.obj _ => true

/-- Truthiness of a possibly-`undefined` value. -/
def jsTruthyV : Option Json → Bool
  | none => false
  | some v => jsonTruthy v

/-- Models the JavaScript `a || b` chain on possibly-`undefined`
values. -/
def jsOr (a b : Option Json) : Option Json :=
  if jsTruthyV a then a else b

/-- Models `payload?.k || dflt` as used when a frame field is filled
from a backend payload with a default. -/
def jsDefault (v : Option Json) (dflt : Json) : Json :=
  match v with
  | some x => if jsonTruthy x then x else dflt
  | none => dflt

/-! Model of `JSON.stringify`.

Compact output with insertion-ordered keys, as `JSON.stringify`
produces.  String escaping covers the characters this code emits; the
`\uXXXX` forms for other control characters are not exercised. -/

/-- Escape one character for a JSON string literal. -/
def escapeJsonChar (c : Char) : Str :=
  if c == ('"') then [('\\'), ('"')]
  else if c == ('\\') then [('\\'), ('\\')]
  else if c == ('\n') then [('\\'), ('n')]
  else if c == ('\r') then [('\\'), ('r')]
  else if c == ('\t') then [('\\'), ('t')]
  else [c]

/-- A quoted, escaped JSON string literal. -/
def quoteStr (s : Str) : Str :=
  ('"') :: s.foldr (fun c acc => escapeJsonChar c ++ acc) [('"')]

/-- Decimal digits of a natural number (fuel-based so that the kernel
can evaluate it). -/
def natToStrAux : Nat → Nat → Str
  | 0, _ => []
  | fuel+1, n =>
    if n < 10 then [Char.ofNat (('0').toNat + n)]
    else natToStrAux fuel (n / 10) ++ [Char.ofNat (('0').toNat + n % 10)]

/-- Decimal representation of a natural number. -/
def natToStr (n : Nat) : Str := natToStrAux (n + 1) n

/-- Decimal representation of an integer. -/
def intToStr (i : Int) : Str :=
  match i with
  | Int.ofNat n => natToStr n
  | Int.negSucc m => ('-') :: natToStr (m + 1)

/-- Prints a scaled-decimal JSON number.  Trailing-zero normalisation of
`JSON.stringify` is not replicated; the values this code stringifies are
integers or plain decimals. -/
def numToStr (mant : Int) (scale : Nat) : Str :=
  if scale = 0 then intToStr mant
  else
    let digs := natToStr mant.natAbs
    let digs2 := List.replicate (scale + 1 - digs.length) ('0') ++ digs
    let sign : Str := if mant < 0 then [('-')] else []
    sign ++ digs2.take (digs2.length - scale) ++ ('.') :: digs2.drop (digs2.length - scale)

mutual

/-- Models `JSON.stringify` on a JSON value. -/
def jsonStringify : Json → Str
  | Json.null => ("null").data
  | Json.bool true => ("true").data
  | Json.bool false => ("false").data
  | Json.num m sc => numToStr m sc
  | Json.str s => quoteStr s
  | Json.arr xs => ('[') :: jsonStringifyList xs ++ [(']')]
  | Json.obj ms => ('\x7b') :: jsonStringifyMembers ms ++ [('\x7d')]

/-- Comma-joined stringification of array elements. -/
def jsonStringifyList : JsonList → Str
  | JsonList.nil => []
  | JsonList.cons x JsonList.nil => jsonStringify x
  | JsonList.cons x tl => jsonStringify x ++ (',') :: jsonStringifyList tl

/-- Comma-joined stringification of object members. -/
def jsonStringifyMembers : JsonMembers → Str
  | JsonMembers.nil => []
  | JsonMembers.cons k v JsonMembers.nil => quoteStr k ++ (':') :: jsonStringify v
  | JsonMembers.cons k v tl =>
    (quoteStr k ++ (':') :: jsonStringify v) ++ (',') :: jsonStringifyMembers tl

end

/-! Model of `JSON.parse`.

A recursive-descent parser over the JSON grammar as `JSON.parse` reads
it, fuelled so that every run is a structural computation (the fuel
passed by `jsonParse` always suffices, since each unit of input sustains
a bounded number of steps).  Scope notes: numbers are signed decimals
without exponents, the leading-zero restriction is not enforced, and
`\uXXXX` string escapes are decoded to the corresponding code unit —
together covering every literal this repository exchanges; inputs
outside the modelled grammar fail to parse, which the processors treat
the same way as a `JSON.parse` throw. -/

/-- Skips JSON whitespace. -/
def skipWs (s : Str) : Str :=
  s.dropWhile (fun c => c == (' ') || c == ('\t') || c == ('\n') || c == ('\r'))

/-- Value of a hexadecimal digit. -/
def hexVal (c : Char) : Option Nat :=
  if c.isDigit then some (c.toNat - ('0').toNat)
  else if decide (('a') ≤ c.toLower) && decide (c.toLower ≤ ('f')) then
    some (c.toLower.toNat - ('a').toNat + 10)
  else none

/-- Parses the remainder of a JSON string literal (after the opening
quote), returning its characters and the rest of the input. -/
def jpStringRest : Str → Option (Str × Str)
  | [] => none
  | '"' :: cs => some ([], cs)
  | '\\' :: 'u' :: h1 :: h2 :: h3 :: h4 :: cs =>
    (match hexVal h1, hexVal h2, hexVal h3, hexVal h4 with
     | some a, some b, some c, some d =>
       (jpStringRest cs).map
         (fun r => (Char.ofNat (((a * 16 + b) * 16 + c) * 16 + d) :: r.1, r.2))
     | _, _, _, _ => none)
  | '\\' :: e :: cs =>
    (match
        (if e == ('"') then some ('"')
         else if e == ('\\') then some ('\\')
         else if e == ('/') then some ('/')
         else if e == ('b') then some ('\x08')
         else if e == ('f') then some ('\x0c')
         else if e == ('n') then some ('\n')
         else if e == ('r') then some ('\r')
         else if e == ('t') then some ('\t')
         else none) with
     | some ch => (jpStringRest cs).map (fun r => (ch :: r.1, r.2))
     | none => none)
  | '\\' :: [] => none
  | c :: cs => (jpStringRest cs).map (fun r => (c :: r.1, r.2))

/-- Parses a JSON number at the head of the input. -/
def jpNumber (s : Str) : Option (Json × Str) :=
  let core : Str → Option (Int × Nat × Str) := fun t =>
    let digs := t.takeWhile (fun c => c.isDigit)
    if digs.isEmpty then none
    else
      match t.drop digs.length with
      | '.' :: t2 =>
        let frac := t2.takeWhile (fun c => c.isDigit)
        if frac.isEmpty then none
        else some ((digitsToNat (digs ++ frac) : Int), frac.length, t2.drop frac.length)
      | rest => some ((digitsToNat digs : Int), 0, rest)
  match s with
  | '-' :: t => (core t).map (fun r => (Json.num (-r.1) r.2.1, r.2.2))
  | t => (core t).map (fun r => (Json.num r.1 r.2.1, r.2.2))

mutual

/-- Parses one JSON value (after skipping leading whitespace). -/
def jpVal : Nat → Str → Option (Json × Str)
  | 0, _ => none
  | fuel+1, s =>
    match skipWs s with
    | '"' :: cs => (jpStringRest cs).map (fun r => (Json.str r.1, r.2))
    | '[' :: cs =>
      (match skipWs cs with
       | ']' :: cs2 => some (Json.arr JsonList.nil, cs2)
       | _ => (jpElems fuel cs).map (fun r => (Json.arr r.1, r.2)))
    | '\x7b' :: cs =>
      (match skipWs cs with
       | '\x7d' :: cs2 => some (Json.obj JsonMembers.nil, cs2)
       | _ => (jpMembers fuel cs).map (fun r => (Json.obj r.1, r.2)))
    | t =>
      if (("null").data).isPrefixOf t then some (Json.null, t.drop 4)
      else if (("true").data).isPrefixOf t then some (Json.bool true, t.drop 4)
      else if (("false").data).isPrefixOf t then some (Json.bool false, t.drop 5)
      else jpNumber t

/-- Parses the elements of a non-empty JSON array body. -/
def jpElems : Nat → Str → Option (JsonList × Str)
  | 0, _ => none
  | fuel+1, s =>
    match jpVal fuel s with
    | none => none
    | some (v, r) =>
      match skipWs r with
      | ',' :: r2 => (jpElems fuel r2).map (fun t => (JsonList.cons v t.1, t.2))
      | ']' :: r2 => some (JsonList.cons v JsonList.nil, r2)
      | _ => none

/-- Parses the members of a non-empty JSON object body. -/
def jpMembers : Nat → Str → Option (JsonMembers × Str)
  | 0, _ => none
  | fuel+1, s =>
    match skipWs s with
    | '"' :: cs =>
      (match jpStringRest cs with
       | none => none
       | some (k, r) =>
         match skipWs r with
         | ':' :: r2 =>
           (match jpVal fuel r2 with
            | none => none
            | some (v, r3) =>
              match skipWs r3 with
              | ',' :: r4 => (jpMembers fuel r4).map (fun t => (JsonMembers.cons k v t.1, t.2))
              | '\x7d' :: r4 => some (JsonMembers.cons k v JsonMembers.nil, r4)
              | _ => none)
         | _ => none)
    | _ => none

end

/-- Models `JSON.parse(s)`: parse one value and require only whitespace
to remain; `none` stands for the thrown `SyntaxError`. -/
def jsonParse (s : Str) : Option Json :=
  match jpVal (4 * s.length + 8) s with
  | some (v, rest) => if (skipWs rest).isEmpty then some v else none
  | none => none

/-! Embedding of `src/proxy/response-processors.js` — streaming processors.

Each processor reads byte chunks, appends their decoded text to a
pending buffer, splits on newlines keeping the trailing incomplete line,
and classifies each complete line.  Chunks are modelled as the decoded
text of each read (`TextDecoder` with `stream: true` makes the decoded
texts concatenate to the full payload).  `res.write` calls are collected
into an output list; `res.end()` after a `[DONE]` sentinel terminates
processing, which the state records so later reads are ignored. -/

/-- Models `line.split(sep)[1]`: the segment between the first and the
second occurrence of `sep` (to the end when there is no second
occurrence).  `none` position never arises at the call sites because
the line is known to start with `sep`. -/
def findSub (sep : Str) : Str → Option Nat
  | [] => if sep.isEmpty then some 0 else none
  | c :: cs =>
    if sep.isPrefixOf (c :: cs) then some 0
    else (findSub sep cs).map (· + 1)

/-- The `[1]` element of `s.split(sep)` (empty when absent, which makes
the subsequent `JSON.parse` fail exactly as parsing `undefined` does). -/
def jsSplitSecond (sep : Str) (s : Str) : Str :=
  match findSub sep s with
  | none => []
  | some i =>
    let rest := s.drop (i + sep.length)
    match findSub sep rest with
    | none => rest
    | some j => rest.take j

/-- Embeds the `intermediateMessage` object both streaming processors
build from a parsed `intermediate_data:` payload: every field defaulted
when the payload lacks it (or holds a falsy value), a fixed `type`, and
no `index` field. -/
def intermediateFrame (payload : Json) : Json :=
  Json.obj (jmOfList
    [(("id").data, jsDefault (jsGet payload (("id").data)) (Json.str [])),
     (("status").data,
       jsDefault (jsGet payload (("status").data)) (Json.str (("in_progress").data))),
     (("error").data, jsDefault (jsGet payload (("error").data)) (Json.str [])),
     (("type").data, Json.str (("system_intermediate").data)),
     (("parent_id").data,
       jsDefault (jsGet payload (("parent_id").data)) (Json.str (("default").data))),
     (("intermediate_parent_id").data,
       jsDefault (jsGet payload (("intermediate_parent_id").data))
         (Json.str (("default").data))),
     (("content").data, Json.obj (jmOfList
        [(("name").data,
           jsDefault (jsGet payload (("name").data)) (Json.str (("Step").data))),
         (("payload").data,
           jsDefault (jsGet payload (("payload").data))
             (Json.str (("No details").data)))])),
     (("time_stamp").data,
       jsDefault (jsGet payload (("time_stamp").data)) (Json.str (("default").data)))])

/-- The `<intermediatestep>` framing marker written for one
intermediate-step frame. -/
def markerStr (frame : Json) : Str :=
  ("<intermediatestep>").data ++ jsonStringify frame ++ ("</intermediatestep>").data

/-- One line of `processGenerateStream`, given the `finalAnswerSent`
flag: returns the texts written, the updated flag, and whether the
stream terminated on a `[DONE]` sentinel.  Content is written only when
truthy and a string, as `if (content && typeof content === 'string')`
checks. -/
def genLineStep (finalAnswerSent : Bool) (line : Str) : List Str × Bool × Bool :=
  if startsWithStr line (("data: ").data) then
    let data := trimStr (line.drop 6)
    if data == ("[DONE]").data || data == ("DONE").data then ([], finalAnswerSent, true)
    else
      match jsonParse data with
      | none => ([], finalAnswerSent, false)
      | some parsed =>
        let content := jsOr (jsGet parsed (("value").data))
          (jsOr (jsGet parsed (("output").data)) (jsGet parsed (("answer").data)))
        match content with
        | some (Json.str s) =>
          if !s.isEmpty then ([s], finalAnswerSent, false) else ([], finalAnswerSent, false)
        | _ => ([], finalAnswerSent, false)
  else if startsWithStr line (("intermediate_data: ").data) then
    let data := jsSplitSecond (("intermediate_data: ").data) line
    match jsonParse data with
    | none => ([], finalAnswerSent, false)
    | some payload => ([markerStr (intermediateFrame payload)], finalAnswerSent, false)
  else if startsWithStr line (("final_answer: ").data) && !finalAnswerSent then
    let data := jsSplitSecond (("final_answer: ").data) line
    match jsonParse data with
    | none => ([], finalAnswerSent, false)
    | some parsed =>
      let answer := jsOr (jsGet parsed (("answer").data))
        (jsOr (jsGet parsed (("value").data)) (some (Json.str data)))
      match answer with
      | some (Json.str s) => if !s.isEmpty then ([s], true, false) else ([], finalAnswerSent, false)
      | _ => ([], finalAnswerSent, false)
  else ([], finalAnswerSent, false)

/-- One line of `processChatStream` (it keeps no `finalAnswerSent`
state; the flag is threaded unchanged so both processors share the
stream machinery).  A truthy non-string content would make `res.write`
throw inside the surrounding `try`, whose handler swallows the error, so
nothing is written in that case either. -/
def chatLineStep (finalAnswerSent : Bool) (line : Str) : List Str × Bool × Bool :=
  if startsWithStr line (("data: ").data) then
    let data := trimStr (line.drop 6)
    if data == ("[DONE]").data || data == ("DONE").data then ([], finalAnswerSent, true)
    else
      match jsonParse data with
      | none => ([], finalAnswerSent, false)
      | some parsed =>
        let content := jsOr
          (jsGetV (jsGetV (jsIndexV (jsGet parsed (("choices").data)) 0)
            (("message").data)) (("content").data))
          (jsGetV (jsGetV (jsIndexV (jsGet parsed (("choices").data)) 0)
            (("delta").data)) (("content").data))
        match content with
        | some (Json.str s) =>
          if !s.isEmpty then ([s], finalAnswerSent, false) else ([], finalAnswerSent, false)
        | _ => ([], finalAnswerSent, false)
  else if startsWithStr line (("intermediate_data: ").data) then
    let data := jsSplitSecond (("intermediate_data: ").data) line
    match jsonParse data with
    | none => ([], finalAnswerSent, false)
    | some payload => ([markerStr (intermediateFrame payload)], finalAnswerSent, false)
  else ([], finalAnswerSent, false)

/-- State of a streaming processor across reads: the pending buffer, the
`finalAnswerSent` flag, whether `[DONE]` already ended the stream (the
buffer is cleared then — a terminated processor never reads again), and
the texts written so far. -/
structure SState where
  buffer : Str
  finalAnswerSent : Bool
  terminated : Bool
  out : List Str
deriving DecidableEq

/-- The initial processor state. -/
def initState : SState :=
  ⟨[], false, false, []⟩

/-- Processes a list of complete lines in order, stopping at a `[DONE]`
termination: returns the accumulated writes, the final flag, and whether
termination occurred. -/
def runLines (step : Bool → Str → List Str × Bool × Bool) (fas : Bool) :
    List Str → List Str × Bool × Bool
  | [] => ([], fas, false)
  | l :: ls =>
    let r := step fas l
    if r.2.2 then (r.1, r.2.1, true)
    else
      let rest := runLines step r.2.1 ls
      (r.1 ++ rest.1, rest.2.1, rest.2.2)

/-- One read iteration of a streaming processor: append the chunk to the
buffer, split off the complete lines, process them. -/
def feedChunk (step : Bool → Str → List Str × Bool × Bool) (st : SState) (chunk : Str) :
    SState :=
  if st.terminated then st
  else
    let sp := splitNl (st.buffer ++ chunk)
    let r := runLines step st.finalAnswerSent sp.1
    if r.2.2 then ⟨[], r.2.1, true, st.out ++ r.1⟩
    else ⟨sp.2, r.2.1, false, st.out ++ r.1⟩

/-- Runs a streaming processor over a whole sequence of reads. -/
def feedAll (step : Bool → Str → List Str × Bool × Bool) (st : SState)
    (chunks : List Str) : SState :=
  chunks.foldl (feedChunk step) st

/-- Embeds `processGenerateStream` on a successful backend response: the
ordered texts written to the client for the given sequence of reads. -/
def processGenerateStream (chunks : List Str) : List Str :=
  (feedAll genLineStep initState chunks).out

/-- Embeds `processChatStream` on a successful backend response: the
ordered texts written to the client for the given sequence of reads. -/
def processChatStream (chunks : List Str) : List Str :=
  (feedAll chatLineStep initState chunks).out

/-! Embedding of `src/proxy/response-processors.js` — buffered processors.

Each reads the full body text, attempts `JSON.parse`, extracts content
by the protocol-specific precedence chain, and ends the client response
with the content (strings as-is, other values re-serialised with
`JSON.stringify`); an unparseable body is passed through unchanged.
`JSON.stringify(undefined)` is `undefined`, so `res.end(undefined)`
writes an empty body, modelled as the empty string. -/

/-- Ends the response with an extracted value:
`res.end(typeof v === 'string' ? v : JSON.stringify(v))`. -/
def endWithContent (v : Option Json) : Str :=
  match v with
  | some (Json.str s) => s
  | some j => jsonStringify j
  | none => []

/-- Embeds `processChat` on a successful response body: precedence
`choices[0].message.content` → `message` → `answer` → `value`. -/
def processChat (body : Str) : Str :=
  match jsonParse body with
  | none => body
  | some parsed =>
    endWithContent (jsOr
      (jsGetV (jsGetV (jsIndexV (jsGet parsed (("choices").data)) 0)
        (("message").data)) (("content").data))
      (jsOr (jsGet parsed (("message").data))
        (jsOr (jsGet parsed (("answer").data)) (jsGet parsed (("value").data)))))

/-- Embeds `processGenerate` on a successful response body: precedence
`value` → `output` → `answer` → (`choices` being an array ?
`choices[0]?.message?.content` : `null`). -/
def processGenerate (body : Str) : Str :=
  match jsonParse body with
  | none => body
  | some parsed =>
    let fromChoices : Option Json :=
      match jsGet parsed (("choices").data) with
      | some (Json.arr xs) => jsGetV (jsGetV (jlGetIdx xs 0) (("message").data)) (("content").data)
      | _ => some Json.null
    endWithContent (jsOr (jsGet parsed (("value").data))
      (jsOr (jsGet parsed (("output").data))
        (jsOr (jsGet parsed (("answer").data)) fromChoices)))

/-! Embedding of `src/proxy/request-transformers.js` — payload builders. -/

/-- A chat message as the builders consume it; only `role` and `content`
are load-bearing. -/
structure ChatMsg where
  role : Str
  content : Str
deriving DecidableEq

/-- The JSON object a message serialises to inside a payload. -/
def msgJson (m : ChatMsg) : Json :=
  Json.obj (jmOfList
    [(("role").data, Json.str m.role), (("content").data, Json.str m.content)])

/-- Models `messages[messages.length - 1]` inside an array literal: the
last element, or JavaScript `undefined` for an empty list — which
serialises as `null` inside an array. -/
def jsLastElem (messages : List ChatMsg) : Json :=
  match messages.getLast? with
  | some m => msgJson m
  | none => Json.null

/-- Models `Number(value)` for the signed decimal literals the optional
parameter parser coerces (hexadecimal, exponent and bare-fraction forms
are not exercised); `none` is `NaN`. -/
def jsNumberParse (v : Str) : Option (Int × Nat) :=
  let core : Str → Option (Nat × Nat) := fun t =>
    let digs := t.takeWhile (fun c => c.isDigit)
    if digs.isEmpty then none
    else
      match t.drop digs.length with
      | [] => some (digitsToNat digs, 0)
      | '.' :: t2 =>
        let frac := t2.takeWhile (fun c => c.isDigit)
        if frac.isEmpty || !(t2.drop frac.length).isEmpty then none
        else some (digitsToNat (digs ++ frac), frac.length)
      | _ => none
  match v with
  | '-' :: t => (core t).map (fun r => (-(r.1 : Int), r.2))
  | '+' :: t => (core t).map (fun r => ((r.1 : Int), r.2))
  | t => (core t).map (fun r => ((r.1 : Int), r.2))

/-- One `key=value` pair of the comma-separated fallback format, with
the best-effort coercion (`true`/`false`, then number, else string);
pairs with a missing or empty key or value are skipped. -/
def parseKVPair (pair : Str) : Option (Str × Json) :=
  let parts := (splitOnCharFn ('=') pair).map trimStr
  match parts.get? 0, parts.get? 1 with
  | some k, some v =>
    if !k.isEmpty && !v.isEmpty then
      some (k,
        if v == ("true").data then Json.bool true
        else if v == ("false").data then Json.bool false
        else
          match jsNumberParse v with
          | some r => Json.num r.1 r.2
          | none => Json.str v)
    else none
  | _, _ => none

/-- Embeds `parseOptionalParams`: empty or blank input yields an empty
object; otherwise try `JSON.parse`, falling back to comma-separated
`key=value` pairs with coercion. -/
def parseOptionalParams (paramsString : Str) : Json :=
  if paramsString.isEmpty || (trimStr paramsString).isEmpty then Json.obj JsonMembers.nil
  else
    match jsonParse paramsString with
    | some j => j
    | none =>
      Json.obj (jmOfList ((splitOnCharFn (',') paramsString).filterMap parseKVPair))

/-- Replaces the value at a key wherever it occurs in a member list. -/
def jmSetKey : JsonMembers → Str → Json → JsonMembers
  | JsonMembers.nil, _, _ => JsonMembers.nil
  | JsonMembers.cons k0 v0 tl, k, v =>
    JsonMembers.cons k0 (if k0 == k then v else v0) (jmSetKey tl k v)

/-- Whether a member list holds a key. -/
def jmHasKey : JsonMembers → Str → Bool
  | JsonMembers.nil, _ => false
  | JsonMembers.cons k0 _ tl, k => k0 == k || jmHasKey tl k

/-- Appends a member at the end of a member list. -/
def jmAppend : JsonMembers → Str → Json → JsonMembers
  | JsonMembers.nil, k, v => JsonMembers.cons k v JsonMembers.nil
  | JsonMembers.cons k0 v0 tl, k, v => JsonMembers.cons k0 v0 (jmAppend tl k v)

/-- One property copy of `Object.assign`: update in place when the key
exists, append otherwise. -/
def jmAssignOne (target : JsonMembers) (k : Str) (v : Json) : JsonMembers :=
  if jmHasKey target k then jmSetKey target k v else jmAppend target k v

/-- Copies source members onto a target member list, left to right. -/
def jmAssignAll (target : JsonMembers) : JsonMembers → JsonMembers
  | JsonMembers.nil => target
  | JsonMembers.cons k v tl => jmAssignAll (jmAssignOne target k v) tl

/-- Models `Object.assign(payload, parsedParams)` for the payload
object: object sources are merged key by key; primitive sources
contribute no own enumerable properties and leave the payload unchanged
(a string source would copy index properties, a form not exercised). -/
def objAssign (base src : Json) : Json :=
  match base, src with
  | Json.obj bs, Json.obj ss => Json.obj (jmAssignAll bs ss)
  | _, _ => base

/-- Embeds `buildGeneratePayload`: `input_message` is the message or,
when the argument is absent or empty (falsy), the empty string. -/
def buildGeneratePayload (message : Option Str) : Json :=
  Json.obj (jmOfList
    [(("input_message").data, Json.str
      (match message with
       | some s => if !s.isEmpty then s else []
       | none => []))])

/-- Embeds `buildGenerateStreamPayload` (the source duplicates the
non-streaming builder verbatim). -/
def buildGenerateStreamPayload (message : Option Str) : Json :=
  Json.obj (jmOfList
    [(("input_message").data, Json.str
      (match message with
       | some s => if !s.isEmpty then s else []
       | none => []))])

/-- Embeds `buildChatPayload`: the messages array (full history, or the
sole last-element access), the fixed model string, `stream: false`,
`temperature: 0.7`, then the optional parameters shallow-merged over the
base payload. -/
def buildChatPayload (messages : List ChatMsg) (useChatHistory : Bool)
    (optionalParams : Str) : Json :=
  let payload := Json.obj (jmOfList
    [(("messages").data, Json.arr (jlOfList
        (if useChatHistory then messages.map msgJson else [jsLastElem messages]))),
     (("model").data, Json.str (("nvidia/nemotron").data)),
     (("stream").data, Json.bool false),
     (("temperature").data, Json.num 7 1)])
  if !optionalParams.isEmpty && !(trimStr optionalParams).isEmpty then
    objAssign payload (parseOptionalParams optionalParams)
  else payload

/-- Embeds `buildChatStreamPayload` (the source duplicates the
non-streaming builder verbatim, including `stream: false`). -/
def buildChatStreamPayload (messages : List ChatMsg) (useChatHistory : Bool)
    (optionalParams : Str) : Json :=
  let payload := Json.obj (jmOfList
    [(("messages").data, Json.arr (jlOfList
        (if useChatHistory then messages.map msgJson else [jsLastElem messages]))),
     (("model").data, Json.str (("nvidia/nemotron").data)),
     (("stream").data, Json.bool false),
     (("temperature").data, Json.num 7 1)])
  if !optionalParams.isEmpty && !(trimStr optionalParams).isEmpty then
    objAssign payload (parseOptionalParams optionalParams)
  else payload

/-- The SSE payload of the streaming-reassembly test case. -/
def ssePayloadHelloWorld : Str :=
  ("data: \x7b\"value\":\"Hello\"\x7d\ndata: \x7b\"value\":\" world\"\x7d\ndata: [DONE]\n").data

/-- A payload split into single-character reads (the byte-by-byte
chunking of an ASCII payload). -/
def charChunks (s : Str) : List Str :=
  s.map (fun c => [c])

set_option maxRecDepth 1000000

/-! Helper lemmas. -/

/-- Unfolding lemma for `splitNl` on a cons. -/
theorem splitNl_cons (c : Char) (cs : Str) :
    splitNl (c :: cs) = splitNlCons c (splitNl cs) := rfl

/-- `splitNlCons` on a newline opens a fresh complete line. -/
theorem splitNlCons_newline (r : List Str × Str) :
    splitNlCons ('\n') r = ([] :: r.1, r.2) := by
  simp [splitNlCons]

/-- `splitNlCons` on a non-newline prepends the character to the first
complete line, or to the remainder when there is none. -/
theorem splitNlCons_ne (c : Char) (hc : c ≠ ('\n')) (r : List Str × Str) :
    splitNlCons c r =
      (match r.1 with
       | [] => ([], c :: r.2)
       | l :: ls => ((c :: l) :: ls, r.2)) := by
  simp [splitNlCons, hc]

/-- Splitting off complete lines commutes with appending input: the
lines of `x ++ y` are the lines of `x` followed by the lines of the
remainder of `x` glued to `y`. -/
theorem splitNl_append (x y : Str) :
    splitNl (x ++ y) =
      ((splitNl x).1 ++ (splitNl ((splitNl x).2 ++ y)).1,
       (splitNl ((splitNl x).2 ++ y)).2) := by
  induction x with
  | nil => simp [splitNl]
  | cons c cs ih =>
    rw [List.cons_append, splitNl_cons, splitNl_cons, ih]
    by_cases hc : c = ('\n')
    · subst hc
      rw [splitNlCons_newline, splitNlCons_newline]
      simp
    · rw [splitNlCons_ne c hc, splitNlCons_ne c hc]
      cases h1 : (splitNl cs).1 with
      | nil =>
        simp only [h1, List.nil_append]
        rw [List.cons_append, splitNl_cons, splitNlCons_ne c hc]
      | cons l ls =>
        simp only [h1, List.cons_append]

/-- Processing a concatenation of line lists: short-circuit on a
termination inside the first part, otherwise continue into the second
with the updated flag. -/
theorem runLines_append (step : Bool → Str → List Str × Bool × Bool) (fas : Bool)
    (xs ys : List Str) :
    runLines step fas (xs ++ ys) =
      if (runLines step fas xs).2.2 then runLines step fas xs
      else ((runLines step fas xs).1 ++ (runLines step (runLines step fas xs).2.1 ys).1,
            (runLines step (runLines step fas xs).2.1 ys).2) := by
  induction xs generalizing fas with
  | nil => simp [runLines]
  | cons l ls ih =>
    simp only [List.cons_append, runLines]
    by_cases hd : (step fas l).2.2
    · simp [hd]
    · simp [hd, ih ((step fas l).2.1)]
      by_cases hd2 : (runLines step (step fas l).2.1 ls).2.2
      · simp [hd2]
      · simp [hd2, List.append_assoc]

/-- Feeding two chunks in sequence equals feeding their
concatenation. -/
theorem feedChunk_append (step : Bool → Str → List Str × Bool × Bool) (st : SState)
    (a b : Str) :
    feedChunk step (feedChunk step st a) b = feedChunk step st (a ++ b) := by
  by_cases hT : st.terminated
  · simp [feedChunk, hT]
  · rcases h : splitNl (st.buffer ++ a) with ⟨lines1, rem1⟩
    rcases hrl : runLines step st.finalAnswerSent lines1 with ⟨o1, f1, d1⟩
    rcases h3 : splitNl (rem1 ++ b) with ⟨lines2, rem2⟩
    have h2 : splitNl (st.buffer ++ (a ++ b)) = (lines1 ++ lines2, rem2) := by
      rw [← List.append_assoc, splitNl_append, h, h3]
    by_cases hd1 : d1
    · subst hd1
      have hL : feedChunk step st a = ⟨[], f1, true, st.out ++ o1⟩ := by
        simp [feedChunk, hT, h, hrl]
      have h4 : runLines step st.finalAnswerSent (lines1 ++ lines2) = (o1, f1, true) := by
        rw [runLines_append, hrl]
        simp
      rw [hL]
      have hLL : feedChunk step ⟨[], f1, true, st.out ++ o1⟩ b =
          ⟨[], f1, true, st.out ++ o1⟩ := by
        simp [feedChunk]
      rw [hLL]
      simp [feedChunk, hT, h2, h4]
    · have hd1f : d1 = false := by simpa using hd1
      subst hd1f
      rcases hrl2 : runLines step f1 lines2 with ⟨o2, f2, d2⟩
      have hL : feedChunk step st a = ⟨rem1, f1, false, st.out ++ o1⟩ := by
        simp [feedChunk, hT, h, hrl]
      have h4 : runLines step st.finalAnswerSent (lines1 ++ lines2) = (o1 ++ o2, f2, d2) := by
        rw [runLines_append, hrl]
        simp [hrl2]
      rw [hL]
      by_cases hd2 : d2
      · subst hd2
        have hLL : feedChunk step ⟨rem1, f1, false, st.out ++ o1⟩ b =
            ⟨[], f2, true, (st.out ++ o1) ++ o2⟩ := by
          simp [feedChunk, h3, hrl2]
        rw [hLL]
        simp [feedChunk, hT, h2, h4, List.append_assoc]
      · have hd2f : d2 = false := by simpa using hd2
        subst hd2f
        have hLL : feedChunk step ⟨rem1, f1, false, st.out ++ o1⟩ b =
            ⟨rem2, f2, false, (st.out ++ o1) ++ o2⟩ := by
          simp [feedChunk, h3, hrl2]
        rw [hLL]
        simp [feedChunk, hT, h2, h4, List.append_assoc]

/-- Feeding a non-empty chunk sequence equals feeding one concatenated
chunk. -/
theorem feedAll_cons_join (step : Bool → Str → List Str × Bool × Bool) (st : SState)
    (c : Str) (cs : List Str) :
    feedAll step st (c :: cs) = feedChunk step st (c ++ cs.flatten) := by
  induction cs generalizing st c with
  | nil => simp [feedAll, List.foldl]
  | cons c2 cs ih =>
    have h0 : feedAll step st (c :: c2 :: cs) = feedAll step (feedChunk step st c) (c2 :: cs) :=
      rfl
    rw [h0, ih, feedChunk_append, List.flatten_cons]

/-- From the initial state, a streaming processor computes the same
state on any chunking of the payload as on the whole payload at once. -/
theorem feedAll_init_join (step : Bool → Str → List Str × Bool × Bool)
    (chunks : List Str) :
    feedAll step initState chunks = feedChunk step initState chunks.flatten := by
  cases chunks with
  | nil => rfl
  | cons c cs => rw [feedAll_cons_join, List.flatten_cons]

/-- A private or metadata hostname is always flagged by the
DNS-rebinding check. -/
theorem checkDNSRebinding_of_private (h : Str) (hp : isPrivateIP h = true) :
    checkDNSRebinding h = true := by
  simp [checkDNSRebinding, hp]

/-- The stream-size wrapper passes every chunk through when the total
stays within the ceiling. -/
theorem streamWithLimit_ok (maxSize : Nat) :
    ∀ (chunks : List Nat) (total : Nat), total + chunks.sum ≤ maxSize →
      streamWithLimit maxSize total chunks = (chunks, none) := by
  intro chunks
  induction chunks with
  | nil => intro total _; rfl
  | cons v rest ih =>
    intro total h
    have hs : v + rest.sum = (v :: rest).sum := by simp
    have hle : ¬ maxSize < total + v := by
      simp only [List.sum_cons] at h; omega
    simp only [streamWithLimit, hle, if_false]
    rw [ih (total + v) (by simp only [List.sum_cons] at h; omega)]

/-- The stream-size wrapper delivers exactly the chunks before the first
crossing of the ceiling and then errors with the crossed total. -/
theorem streamWithLimit_cross (maxSize : Nat) :
    ∀ (chunks : List Nat) (k total : Nat), k < chunks.length →
      total + (chunks.take k).sum ≤ maxSize →
      maxSize < total + (chunks.take (k+1)).sum →
      streamWithLimit maxSize total chunks =
        (chunks.take k,
         some (FetchError.responseTooLarge
           (((total + (chunks.take (k+1)).sum : Nat)) : Int) ((maxSize : Nat) : Int))) := by
  intro chunks
  induction chunks with
  | nil => intro k total hk; simp at hk
  | cons v rest ih =>
    intro k total hk h1 h2
    cases k with
    | zero =>
      have hlt : maxSize < total + v := by
        simp only [List.take_succ_cons, List.take_zero, List.sum_cons, List.sum_nil] at h2
        omega
      simp [streamWithLimit, hlt]
    | succ k2 =>
      have hle : ¬ maxSize < total + v := by
        simp only [List.take_succ_cons, List.sum_cons] at h1
        omega
      have hk2 : k2 < rest.length := by simpa using hk
      have h1b : total + v + (rest.take k2).sum ≤ maxSize := by
        simp only [List.take_succ_cons, List.sum_cons] at h1
        omega
      have h2b : maxSize < total + v + (rest.take (k2 + 1)).sum := by
        simp only [List.take_succ_cons, List.sum_cons] at h2
        omega
      simp only [streamWithLimit, hle, if_false]
      rw [ih k2 (total + v) hk2 h1b h2b]
      simp only [List.take_succ_cons, List.sum_cons]
      congr 3
      omega

/-- A list is a prefix of itself extended by anything. -/
theorem isPrefixOf_append_self (l rest : Str) : l.isPrefixOf (l ++ rest) = true := by
  induction l with
  | nil => cases rest <;> rfl
  | cons c cs ih => simp [List.isPrefixOf, ih]

/-! Claims. -/

/-- Claim C1 (corrected).  The inbound-path validator rejects `/../admin`
under allowed path `/chat` (it matches no allowed path), but it accepts
`/chat/../admin` and `/chat/./admin`: matching is raw string
equality-or-prefix (`allowed + "/"`) with no normalisation, so any
suffix appended after an allowed path passes.  In general a pathname is
accepted exactly when it starts with the proxy prefix plus `/` and the
stripped backend path equals an allowed path or extends one with `/`. -/
theorem C1_path_traversal_amended :
    ((validateProxyHttpPath (("/api/../admin").data)).isValid = false ∧
     (validateProxyHttpPath (("/api/chat/../admin").data)).isValid = true ∧
     (validateProxyHttpPath (("/api/chat/./admin").data)).isValid = true) ∧
    (∀ pathname : Str,
      (validateProxyHttpPath pathname).isValid = true ↔
        (startsWithStr pathname (HTTP_PROXY_PATH ++ [('/')]) = true ∧
         ALLOWED_PATHS.any (fun allowed =>
           pathname.drop HTTP_PROXY_PATH.length == allowed ||
           startsWithStr (pathname.drop HTTP_PROXY_PATH.length) (allowed ++ [('/')])) =
             true)) := by
  refine ⟨⟨by decide, by decide, by decide⟩, ?_⟩
  intro pathname
  unfold validateProxyHttpPath
  by_cases h1 : startsWithStr pathname (HTTP_PROXY_PATH ++ [('/')])
  · simp only [h1, Bool.not_true, Bool.false_eq_true, if_false]
    by_cases h2 : ALLOWED_PATHS.any (fun allowed =>
        pathname.drop HTTP_PROXY_PATH.length == allowed ||
        startsWithStr (pathname.drop HTTP_PROXY_PATH.length) (allowed ++ [('/')]))
    · simp [h2]
    · simp [h2]
  · simp [h1]

/-- Counterexample to claim C1 as stated: the validator accepts the
traversal-shaped inputs `/api/chat/../admin` and `/api/chat/./admin`
instead of rejecting them. -/
theorem C1_path_traversal_counterexample :
    (validateProxyHttpPath (("/api/chat/../admin").data)).isValid = true ∧
    (validateProxyHttpPath (("/api/chat/./admin").data)).isValid = true := by
  exact ⟨by decide, by decide⟩

/-- Witness for C1: the amended characterisation applied to a concrete
accepted pathname. -/
theorem C1_path_traversal_witness :
    (validateProxyHttpPath (("/api/generate/stream").data)).isValid = true :=
  (C1_path_traversal_amended.2 (("/api/generate/stream").data)).mpr ⟨by decide, by decide⟩

/-- Claim C2 (confirmed).  In production, every URL whose parsed
hostname classifies as private or cloud-metadata is rejected by
`validateRequestURL`, for every configuration — in particular allowlist
membership of that hostname does not override the rejection. -/
theorem C2_private_ip_override (cfg : Cfg) (urlString : Str) (u : URLParts)
    (henv : cfg.nodeEnv = NodeEnv.production)
    (hparse : parseURL urlString = some u)
    (hpriv : isPrivateIP u.hostname = true) :
    (validateRequestURL cfg urlString).isValid = false := by
  unfold validateRequestURL
  rw [hparse]
  simp only [henv]
  split_ifs <;> simp_all

/-- Witness for C2: `https://127.0.0.1/chat` is rejected in production
even though `127.0.0.1` is the configured allowlist. -/
theorem C2_private_ip_override_witness :
    (validateRequestURL ⟨NodeEnv.production, ("127.0.0.1").data, []⟩
      (("https://127.0.0.1/chat").data)).isValid = false :=
  C2_private_ip_override ⟨NodeEnv.production, ("127.0.0.1").data, []⟩
    (("https://127.0.0.1/chat").data) ⟨("https:").data, ("127.0.0.1").data⟩
    rfl (by decide) (by decide)

/-- Claim C3 (confirmed).  With an empty computed allowed-hosts set,
`isAllowedRequestURL` rejects every URL in production and accepts every
URL that parses and passes the protocol checks outside production; with
a non-empty set, a parsed URL is accepted exactly when it passes the
protocol checks and its hostname is an exact member of the set. -/
theorem C3_allowlist_emptiness :
    (∀ (cfg : Cfg) (s : Str), cfg.nodeEnv = NodeEnv.production →
      getAllowedHosts cfg = [] → isAllowedRequestURL cfg s = false) ∧
    (∀ (cfg : Cfg) (s : Str) (u : URLParts), cfg.nodeEnv ≠ NodeEnv.production →
      getAllowedHosts cfg = [] → parseURL s = some u →
      protocolGate cfg.nodeEnv u = true → isAllowedRequestURL cfg s = true) ∧
    (∀ (cfg : Cfg) (s : Str) (u : URLParts), getAllowedHosts cfg ≠ [] →
      parseURL s = some u →
      (isAllowedRequestURL cfg s = true ↔
        (protocolGate cfg.nodeEnv u = true ∧
         (getAllowedHosts cfg).contains u.hostname = true))) := by
  refine ⟨?_, ?_, ?_⟩
  · intro cfg s henv hempty
    unfold isAllowedRequestURL
    cases hp : parseURL s with
    | none => rfl
    | some u =>
      by_cases hg : protocolGate cfg.nodeEnv u
      · simp [hg, hempty, henv]
      · simp [hg]
  · intro cfg s u henv hempty hp hg
    unfold isAllowedRequestURL
    rw [hp]
    simp [hg, hempty, henv]
  · intro cfg s u hne hp
    unfold isAllowedRequestURL
    rw [hp]
    have hE : (getAllowedHosts cfg).isEmpty = false := by
      cases hL : getAllowedHosts cfg with
      | nil => exact absurd hL hne
      | cons a as => rfl
    by_cases hg : protocolGate cfg.nodeEnv u
    · simp [hg, hE]
    · simp [hg]

/-- Witness for C3: the three allowlist behaviours at concrete
configurations. -/
theorem C3_allowlist_emptiness_witness :
    isAllowedRequestURL ⟨NodeEnv.production, [], []⟩
      (("https://api.example.com/chat").data) = false ∧
    isAllowedRequestURL ⟨NodeEnv.development, [], []⟩
      (("https://api.example.com/chat").data) = true ∧
    isAllowedRequestURL ⟨NodeEnv.production, ("api.example.com").data, []⟩
      (("https://api.example.com/chat").data) = true :=
  ⟨C3_allowlist_emptiness.1 ⟨NodeEnv.production, [], []⟩ _ rfl (by decide),
   C3_allowlist_emptiness.2.1 ⟨NodeEnv.development, [], []⟩ _
     ⟨("https:").data, ("api.example.com").data⟩ (by decide) (by decide) (by decide)
     (by decide),
   (C3_allowlist_emptiness.2.2 ⟨NodeEnv.production, ("api.example.com").data, []⟩ _
     ⟨("https:").data, ("api.example.com").data⟩ (by decide) (by decide)).mpr
     ⟨by decide, by decide⟩⟩

/-- Claim C4 (confirmed).  A present `Content-Length` above the ceiling
makes `validateResponseSize` (and the fetch path that runs it before
touching the body) fail with `ResponseTooLargeError` for every body; a
stream without that header is delivered in full when its total stays
within the ceiling, and otherwise is cut exactly at the first chunk that
crosses it — every earlier chunk delivered, the crossing chunk dropped,
and the error carrying the crossed running total. -/
theorem C4_response_size_ceiling :
    (∀ (cl : Str) (n : Int) (maxSize : Nat) (chunks : List Nat),
      parseIntDec cl = some n → (maxSize : Int) < n →
      validateResponseSize (some cl) maxSize =
        Except.error (FetchError.responseTooLarge n (maxSize : Int)) ∧
      secureFetchBody (some cl) maxSize chunks =
        Except.error (FetchError.responseTooLarge n (maxSize : Int))) ∧
    (∀ (maxSize : Nat) (chunks : List Nat), chunks.sum ≤ maxSize →
      streamWithLimit maxSize 0 chunks = (chunks, none)) ∧
    (∀ (maxSize : Nat) (chunks : List Nat) (k : Nat), k < chunks.length →
      (chunks.take k).sum ≤ maxSize → maxSize < (chunks.take (k + 1)).sum →
      streamWithLimit maxSize 0 chunks =
        (chunks.take k,
         some (FetchError.responseTooLarge (((chunks.take (k + 1)).sum : Nat) : Int)
           (maxSize : Int)))) := by
  refine ⟨?_, ?_, ?_⟩
  · intro cl n maxSize chunks hp hlt
    have hne : cl.isEmpty = false := by
      cases cl with
      | nil => simp [parseIntDec] at hp
      | cons a as => rfl
    have hv : validateResponseSize (some cl) maxSize =
        Except.error (FetchError.responseTooLarge n (maxSize : Int)) := by
      unfold validateResponseSize
      simp only [hne, Bool.false_eq_true, if_false]
      rw [hp]
      simp [hlt]
    exact ⟨hv, by unfold secureFetchBody; rw [hv]⟩
  · intro maxSize chunks h
    exact streamWithLimit_ok maxSize chunks 0 (by omega)
  · intro maxSize chunks k hk h1 h2
    have h0 := streamWithLimit_cross maxSize chunks k 0 hk (by omega) (by omega)
    simpa using h0

/-- Witness for C4: the ceiling at concrete sizes — an oversized
declared length, a passing stream, and a stream cut at its crossing
chunk. -/
theorem C4_response_size_ceiling_witness :
    validateResponseSize (some (("15000000").data)) 10485760 =
      Except.error (FetchError.responseTooLarge 15000000 10485760) ∧
    secureFetchBody (some (("15000000").data)) 10485760 [1, 2] =
      Except.error (FetchError.responseTooLarge 15000000 10485760) ∧
    streamWithLimit 10 0 [4, 4] = ([4, 4], none) ∧
    streamWithLimit 10 0 [4, 4, 4] = ([4, 4], some (FetchError.responseTooLarge 12 10)) := by
  have h1 := C4_response_size_ceiling.1 (("15000000").data) 15000000 10485760 [1, 2]
    (by decide) (by decide)
  have h2 := C4_response_size_ceiling.2.1 10 [4, 4] (by decide)
  have h3 := C4_response_size_ceiling.2.2 10 [4, 4, 4] 2 (by decide) (by decide) (by decide)
  exact ⟨h1.1, h1.2, h2, h3⟩

/-- Claim C5 (confirmed).  Both streaming processors are invariant under
chunk boundaries: any two chunkings of the same payload yield the
identical ordered output; and every chunking of the
`Hello`/` world`/`[DONE]` payload yields exactly
`["Hello", " world"]` under the generate-stream processor. -/
theorem C5_chunk_invariance :
    (∀ (chunks₁ chunks₂ : List Str), chunks₁.flatten = chunks₂.flatten →
      processGenerateStream chunks₁ = processGenerateStream chunks₂ ∧
      processChatStream chunks₁ = processChatStream chunks₂) ∧
    (∀ chunks : List Str, chunks.flatten = ssePayloadHelloWorld →
      processGenerateStream chunks = [("Hello").data, (" world").data]) := by
  constructor
  · intro c1 c2 h
    constructor
    · unfold processGenerateStream
      rw [feedAll_init_join, feedAll_init_join, h]
    · unfold processChatStream
      rw [feedAll_init_join, feedAll_init_join, h]
  · intro chunks h
    unfold processGenerateStream
    rw [feedAll_init_join, h]
    decide

/-- Witness for C5: byte-by-byte chunking of the payload yields the same
output as the whole-buffer chunking, namely `["Hello", " world"]`. -/
theorem C5_chunk_invariance_witness :
    processGenerateStream (charChunks ssePayloadHelloWorld) =
      [("Hello").data, (" world").data] ∧
    processChatStream (charChunks ssePayloadHelloWorld) =
      processChatStream [ssePayloadHelloWorld] :=
  ⟨C5_chunk_invariance.2 (charChunks ssePayloadHelloWorld) (by decide),
   (C5_chunk_invariance.1 (charChunks ssePayloadHelloWorld) [ssePayloadHelloWorld]
     (by decide)).2⟩

/-- Claim C6 (corrected).  The Generate processor returns `"A"` for the
body with all three fields and `"B"` for the body without `value`; the
Chat processor, whose precedence is `choices[0].message.content` →
`message` → `answer` → `value` with no `output` fallback, returns `"C"`
(not `"B"`) for that second body. -/
theorem C6_extraction_precedence_amended :
    processGenerate (("\x7b\"value\":\"A\",\"output\":\"B\",\"answer\":\"C\"\x7d").data) =
      ("A").data ∧
    processGenerate (("\x7b\"output\":\"B\",\"answer\":\"C\"\x7d").data) = ("B").data ∧
    processChat (("\x7b\"output\":\"B\",\"answer\":\"C\"\x7d").data) = ("C").data := by
  exact ⟨by decide, by decide, by decide⟩

/-- Counterexample to claim C6 as stated: on the body holding only the
fields `output` (value `"B"`) and `answer` (value `"C"`), the Chat
processor returns `"C"`, not the claimed `"B"`. -/
theorem C6_extraction_precedence_counterexample :
    processChat (("\x7b\"output\":\"B\",\"answer\":\"C\"\x7d").data) = ("C").data ∧
    processChat (("\x7b\"output\":\"B\",\"answer\":\"C\"\x7d").data) ≠ ("B").data := by
  exact ⟨by decide, by decide⟩

/-- Claim C7 (confirmed).  `isPrivateIP` classifies every listed private,
loopback, link-local and metadata hostname as private (ASCII
case-insensitively for hostnames), classifies the listed public
addresses as public, and returns `false` on unrecognised input. -/
theorem C7_isPrivateIP_classification :
    isPrivateIP (("127.0.0.1").data) = true ∧
    isPrivateIP (("10.0.0.1").data) = true ∧
    isPrivateIP (("172.16.0.5").data) = true ∧
    isPrivateIP (("192.168.1.1").data) = true ∧
    isPrivateIP (("169.254.169.254").data) = true ∧
    isPrivateIP (("::1").data) = true ∧
    isPrivateIP (("localhost").data) = true ∧
    isPrivateIP (("LOCALHOST").data) = true ∧
    isPrivateIP (("LocalHost").data) = true ∧
    isPrivateIP (("169.254.170.2").data) = true ∧
    isPrivateIP (("metadata.google.internal").data) = true ∧
    isPrivateIP (("Metadata.Google.Internal").data) = true ∧
    isPrivateIP (("100.100.100.200").data) = true ∧
    isPrivateIP (("8.8.8.8").data) = false ∧
    isPrivateIP (("1.1.1.1").data) = false ∧
    isPrivateIP (("93.184.216.34").data) = false ∧
    isPrivateIP (("api.example.com").data) = false ∧
    isPrivateIP [] = false ∧
    isPrivateIP (("not an ip at all").data) = false := by
  decide

/-- Claim C8 (corrected).  No payload builder validates the message
list: for a single message whose role is not `user` the chat builders
still return the normal payload carrying that message; an empty message
list yields a payload whose `messages` array holds the serialisation of
`undefined`; and the generate builders coerce an absent message to an
empty `input_message`.  No `NoUserMessage` error exists — construction
always returns a payload. -/
theorem C8_builders_amended :
    (∀ role content : Str, role ≠ ("user").data →
      buildChatPayload [⟨role, content⟩] false [] =
        Json.obj (jmOfList
          [(("messages").data, Json.arr (jlOfList [msgJson ⟨role, content⟩])),
           (("model").data, Json.str (("nvidia/nemotron").data)),
           (("stream").data, Json.bool false),
           (("temperature").data, Json.num 7 1)]) ∧
      buildChatStreamPayload [⟨role, content⟩] false [] =
        Json.obj (jmOfList
          [(("messages").data, Json.arr (jlOfList [msgJson ⟨role, content⟩])),
           (("model").data, Json.str (("nvidia/nemotron").data)),
           (("stream").data, Json.bool false),
           (("temperature").data, Json.num 7 1)])) ∧
    buildChatPayload [] false [] =
      Json.obj (jmOfList
        [(("messages").data, Json.arr (jlOfList [Json.null])),
         (("model").data, Json.str (("nvidia/nemotron").data)),
         (("stream").data, Json.bool false),
         (("temperature").data, Json.num 7 1)]) ∧
    buildGeneratePayload none =
      Json.obj (jmOfList [(("input_message").data, Json.str [])]) ∧
    buildGenerateStreamPayload none =
      Json.obj (jmOfList [(("input_message").data, Json.str [])]) :=
  ⟨fun _ _ _ => ⟨rfl, rfl⟩, rfl, rfl, rfl⟩

/-- Counterexample to claim C8 as stated: on precondition-violating
inputs the builders return payloads rather than failing — there is no
error outcome at all. -/
theorem C8_builders_counterexample :
    buildGeneratePayload none =
      Json.obj (jmOfList [(("input_message").data, Json.str [])]) ∧
    buildChatPayload [] false [] =
      Json.obj (jmOfList
        [(("messages").data, Json.arr (jlOfList [Json.null])),
         (("model").data, Json.str (("nvidia/nemotron").data)),
         (("stream").data, Json.bool false),
         (("temperature").data, Json.num 7 1)]) :=
  ⟨rfl, rfl⟩

/-- Witness for C8: the chat builder on a message list ending in an
assistant message. -/
theorem C8_builders_witness :
    buildChatPayload [⟨("assistant").data, ("hi").data⟩] false [] =
      Json.obj (jmOfList
        [(("messages").data,
          Json.arr (jlOfList [msgJson ⟨("assistant").data, ("hi").data⟩])),
         (("model").data, Json.str (("nvidia/nemotron").data)),
         (("stream").data, Json.bool false),
         (("temperature").data, Json.num 7 1)]) :=
  (C8_builders_amended.1 (("assistant").data) (("hi").data) (by decide)).1

/-- Claim C9 (corrected).  For every `intermediate_data: ` line whose
remainder parses as JSON, each streaming processor emits exactly one
`<intermediatestep>` marker whose object carries the documented defaults
for missing fields — but the object has no `index` field at all: its
keys are exactly the eight listed ones, so no per-stream counter is
assigned by these processors. -/
theorem C9_intermediate_frame_amended :
    (∀ (fas : Bool) (rest : Str) (p : Json),
      jsonParse (jsSplitSecond (("intermediate_data: ").data)
        ((("intermediate_data: ").data) ++ rest)) = some p →
      genLineStep fas ((("intermediate_data: ").data) ++ rest) =
        ([markerStr (intermediateFrame p)], fas, false) ∧
      chatLineStep fas ((("intermediate_data: ").data) ++ rest) =
        ([markerStr (intermediateFrame p)], fas, false)) ∧
    (∀ p : Json, jsonKeys (intermediateFrame p) =
      [("id").data, ("status").data, ("error").data, ("type").data,
       ("parent_id").data, ("intermediate_parent_id").data,
       ("content").data, ("time_stamp").data]) ∧
    intermediateFrame (Json.obj JsonMembers.nil) =
      Json.obj (jmOfList
        [(("id").data, Json.str []),
         (("status").data, Json.str (("in_progress").data)),
         (("error").data, Json.str []),
         (("type").data, Json.str (("system_intermediate").data)),
         (("parent_id").data, Json.str (("default").data)),
         (("intermediate_parent_id").data, Json.str (("default").data)),
         (("content").data, Json.obj (jmOfList
            [(("name").data, Json.str (("Step").data)),
             (("payload").data, Json.str (("No details").data))])),
         (("time_stamp").data, Json.str (("default").data))]) := by
  refine ⟨?_, fun p => rfl, rfl⟩
  intro fas rest p hp
  have hd : startsWithStr ((("intermediate_data: ").data) ++ rest) (("data: ").data) =
      false := rfl
  have hi : startsWithStr ((("intermediate_data: ").data) ++ rest)
      (("intermediate_data: ").data) = true :=
    isPrefixOf_append_self (("intermediate_data: ").data) rest
  constructor
  · unfold genLineStep
    rw [hd, hi]
    simp only [Bool.false_eq_true, if_false, if_true]
    rw [hp]
  · unfold chatLineStep
    rw [hd, hi]
    simp only [Bool.false_eq_true, if_false, if_true]
    rw [hp]

/-- Counterexample to claim C9 as stated: the concrete marker emitted
for an empty intermediate payload carries no `index` member. -/
theorem C9_intermediate_frame_counterexample :
    processGenerateStream [("intermediate_data: \x7b\x7d\n").data] =
      [("<intermediatestep>\x7b\"id\":\"\",\"status\":\"in_progress\",\"error\":\"\",\"type\":\"system_intermediate\",\"parent_id\":\"default\",\"intermediate_parent_id\":\"default\",\"content\":\x7b\"name\":\"Step\",\"payload\":\"No details\"\x7d,\"time_stamp\":\"default\"\x7d</intermediatestep>").data] ∧
    (jsonKeys (intermediateFrame (Json.obj JsonMembers.nil))).contains (("index").data) =
      false := by
  exact ⟨by decide, by decide⟩

/-- Witness for C9: the amended emission rule at a concrete
`intermediate_data: ` line with an empty JSON payload. -/
theorem C9_intermediate_frame_witness :
    genLineStep false ((("intermediate_data: ").data) ++ ("\x7b\x7d").data) =
      ([markerStr (intermediateFrame (Json.obj JsonMembers.nil))], false, false) :=
  (C9_intermediate_frame_amended.1 false (("\x7b\x7d").data) (Json.obj JsonMembers.nil)
    rfl).1

/-- Claim C10 (confirmed).  A hostname that is not a literal IP (fails
both direct-IP patterns) and classifies as private or metadata makes
`validateRequestURL` reject in every environment and under every
allowlist, because the DNS-rebinding check runs for non-literal
hostnames; whereas the literal private IP `127.0.0.1` skips that check
and validates successfully in development when allowlisted. -/
theorem C10_nonliteral_private_hostname :
    (∀ (cfg : Cfg) (urlString : Str) (u : URLParts), parseURL urlString = some u →
      isDirectIPHost u.hostname = false → isPrivateIP u.hostname = true →
      (validateRequestURL cfg urlString).isValid = false) ∧
    (validateRequestURL ⟨NodeEnv.development, ("127.0.0.1,localhost").data, []⟩
      (("http://127.0.0.1:8000/chat").data)).isValid = true := by
  constructor
  · intro cfg urlString u hp hdir hpriv
    have hdns := checkDNSRebinding_of_private u.hostname hpriv
    obtain ⟨env, sa, sb⟩ := cfg
    cases env <;>
      (unfold validateRequestURL
       rw [hp]
       split_ifs <;> simp_all <;> split_ifs <;> rfl)
  · decide

/-- Witness for C10: `localhost` is rejected even in development with
`localhost` allowlisted, while the literal `127.0.0.1` validates. -/
theorem C10_nonliteral_private_hostname_witness :
    (validateRequestURL ⟨NodeEnv.development, ("127.0.0.1,localhost").data, []⟩
      (("http://localhost:8000/chat").data)).isValid = false ∧
    (validateRequestURL ⟨NodeEnv.development, ("127.0.0.1,localhost").data, []⟩
      (("http://127.0.0.1:8000/chat").data)).isValid = true :=
  ⟨C10_nonliteral_private_hostname.1 ⟨NodeEnv.development, ("127.0.0.1,localhost").data, []⟩
    (("http://localhost:8000/chat").data) ⟨("http:").data, ("localhost").data⟩
    (by decide) (by decide) (by decide),
   C10_nonliteral_private_hostname.2⟩
